import Mathlib

/-!
Shallow embedding of `src/coinbase-moon-lander.py` (Coinbase Moon Lander).

Conventions of the embedding:
* `Decimal` quantities (prices, sizes, fees) are modelled as `ℚ` (exact
  arithmetic; the source's `Decimal` context is wide enough that the
  operations appearing here — `+`, `-`, `*`, comparisons, and the divisions
  in the health score — are exact on the values the claims are about).
* Timestamps (`last_fill_time`, `created_time`) are modelled as `Option Nat`
  (`none` = attribute missing / unparseable; `pd.Timestamp.min` sort
  defaults are encoded by `none` sorting last in descending order).
* Python `int(...)` on a `Decimal` truncates towards zero: `truncToZero`.
* Exchange calls are modelled as oracles: `get_asset_price` over a
  `book` function, and the open-orders pipeline over an indexed price
  oracle `Nat → String → Option ℚ` (the n-th `get_asset_price` result of
  the pass), since each call is an independent network read.
* Python exceptions that the source catches at a function boundary are
  modelled with `Except Unit`.
* Display-only strings that depend on the local timezone (`age`, `time`)
  are omitted from the records; everything else, including the
  `f"...:,.2f"` money formatting (round-half-even, comma grouping), is
  embedded.
-/

/-- Truncation of a rational towards zero, the behaviour of Python `int(Decimal)`. -/
def truncToZero (q : ℚ) : ℤ :=
  if 0 ≤ q then ⌊q⌋ else -⌊-q⌋

/-- Round-half-even at integer resolution, the rounding used by Python
`Decimal` formatting (`ROUND_HALF_EVEN`). -/
def roundHalfEven (q : ℚ) : ℤ :=
  let f := ⌊q⌋
  let r := q - (f : ℚ)
  if r < 1/2 then f
  else if 1/2 < r then f + 1
  else if f % 2 = 0 then f else f + 1

/-- Decimal digit character for `n % 10`. -/
def digitChar (n : Nat) : Char := Char.ofNat (48 + n % 10)

/-- Decimal digits of `n`, least significant first, with explicit fuel so the
definition is structural. -/
def revDigitsAux : Nat → Nat → List Char
  | 0, _ => []
  | fuel+1, n => if n = 0 then [] else digitChar (n % 10) :: revDigitsAux fuel (n / 10)

/-- Decimal digits of `n`, least significant first (`0` renders as `"0"`). -/
def revDigits (n : Nat) : List Char :=
  if n = 0 then ['0'] else revDigitsAux (n+1) n

/-- Insert thousands separators into a least-significant-first digit list,
as Python's `,` format specifier does on the integer part. -/
def groupRevDigits : List Char → Nat → List Char
  | [], _ => []
  | c :: cs, cnt =>
      if cnt = 3 then ',' :: c :: groupRevDigits cs 1
      else c :: groupRevDigits cs (cnt + 1)

/-- Python `f"{q:,.2f}"` on a `Decimal` value: round-half-even to 2 decimal
places, comma-grouped integer part, leading `-` for negative values. -/
def formatComma2 (q : ℚ) : String :=
  let c := roundHalfEven (q * 100)
  let n := c.natAbs
  let ip := n / 100
  let fr := n % 100
  (if q < 0 then "-" else "")
    ++ String.mk ((groupRevDigits (revDigits ip) 0).reverse)
    ++ "." ++ String.mk [digitChar (fr / 10), digitChar fr]

/-- Python `f"{q:.4f}"` on a `Decimal` value: round-half-even to 4 decimal
places, no grouping. -/
def formatFixed4 (q : ℚ) : String :=
  let c := roundHalfEven (q * 10000)
  let n := c.natAbs
  let ip := n / 10000
  let fr := n % 10000
  (if q < 0 then "-" else "")
    ++ String.mk (revDigits ip).reverse
    ++ "." ++ String.mk [digitChar (fr / 1000), digitChar (fr / 100), digitChar (fr / 10), digitChar fr]

/-- The tagged order-configuration variant carried by an exchange order
(`order_configuration`).  The source distinguishes sub-types by attribute
presence (`hasattr`); each recognised attribute becomes a constructor, and a
present-but-unrecognised configuration is `other`.  Inner price/size fields
are `Option ℚ`: `none` models a missing (or Python-falsy) attribute, for
which the source substitutes `'0'` defaults or skips truthiness-guarded
assignments. -/
inductive OrderConf where
  | limitGtc (limit_price : Option ℚ) (base_size : Option ℚ)
  | limitGtd (limit_price : Option ℚ) (base_size : Option ℚ)
  | bracketGtc (limit_price : Option ℚ) (stop_trigger_price : Option ℚ) (base_size : Option ℚ)
  | stopLimitGtc (stop_price : Option ℚ) (limit_price : Option ℚ) (base_size : Option ℚ)
  | stopLimitGtd (stop_price : Option ℚ) (limit_price : Option ℚ) (base_size : Option ℚ)
  | market
  | other
deriving DecidableEq

/-- An exchange order as read from the SDK (the fields the pipeline reads,
with the source's `getattr` defaults applied at field granularity). -/
structure ApiOrder where
  orderId : String
  productId : String
  side : String
  orderConfiguration : Option OrderConf
  averageFilledPrice : ℚ
  filledSize : ℚ
  totalFees : ℚ
  lastFillTime : Option Nat
  createdTime : Option Nat
deriving DecidableEq

/-- `get_best_bid`: best bid of a product book.  The client call is a
`book` oracle returning `Except Unit (Option ℚ)`; `.error` models the call
raising (caught and turned into `None`), `.ok none` models a response with
no usable bids. -/
def get_best_bid (book : String → Except Unit (Option ℚ)) (product_id : String) : Option ℚ :=
  match book product_id with
  | .error _ => none
  | .ok r => r

/-- `get_asset_price`: unit price of an asset.  USD/USDC short-circuit to 1;
otherwise best bid of `asset-USD`, falling back to `asset-USDC`. -/
def get_asset_price (book : String → Except Unit (Option ℚ)) (asset : String) : Option ℚ :=
  if asset = "USD" ∨ asset = "USDC" then some 1
  else
    match get_best_bid book (asset ++ "-USD") with
    | some price => some price
    | none => get_best_bid book (asset ++ "-USDC")

/-- The health-score computation of `get_open_orders_data` (lines 209-243):
default 50, linear interpolation between floor and target when both and the
current price are positive, and the synthetic 10%-of-floor window when only
the floor is positive. -/
def health_score (tp sl cur : ℚ) (side : String) : ℤ :=
  if tp > 0 ∧ sl > 0 ∧ cur > 0 then
    (if tp - sl ≠ 0 then
       max 0 (min 100 (truncToZero ((cur - sl) / (tp - sl) * 100)))
     else 50)
  else if tp > 0 ∧ cur > 0 then 50
  else if sl > 0 ∧ cur > 0 then
    (if side = "SELL" then
       (if cur ≤ sl then 0
        else 50 + min 50 (truncToZero ((cur - sl) / (sl * (1/10)) * 50)))
     else
       (if cur ≥ sl then 100
        else max 0 (min 99 (truncToZero ((1 - (sl - cur) / (sl * (1/10))) * 100)))))
  else 50

/-- Base asset of a product id: `pid.split('-')[0]`. -/
def baseAsset (pid : String) : String := (pid.splitOn "-").headD ""

/-- Config parsing of `get_open_orders_data` (lines 184-207), producing
`(tp_price, sl_price, size, next call index)`.  Only the `_gtc` variants are
recognised there; anything else leaves all three at 0.  The plain-limit
branch performs a second, independent `get_asset_price` call (index `k`) to
synthesise the floor. -/
def parseConfig (oracle : Nat → String → Option ℚ) (k : Nat) (base : String) :
    Option OrderConf → ℚ × ℚ × ℚ × Nat
  | none => (0, 0, 0, k)
  | some (.limitGtc lp bs) => (lp.getD 0, (oracle k base).getD 0, bs.getD 0, k + 1)
  | some (.bracketGtc lp stp bs) => (lp.getD 0, stp.getD 0, bs.getD 0, k)
  | some (.stopLimitGtc stp _ bs) => (0, stp.getD 0, bs.getD 0, k)
  | some (.limitGtd _ _) => (0, 0, 0, k)
  | some (.stopLimitGtd _ _ _) => (0, 0, 0, k)
  | some .market => (0, 0, 0, k)
  | some .other => (0, 0, 0, k)

/-- The valuation block of `get_open_orders_data` (lines 419-437), run only
when `tp > 0 ∨ sl > 0`: payload value and estimated upside display strings
(the `elif` fallback branch there repeats the same condition and is dead). -/
def valuationStrings (size cur tp : ℚ) : String × String :=
  if size > 0 ∧ cur > 0 then
    let current_val := size * cur
    let est_value_str := "$" ++ formatComma2 current_val
    if tp > 0 then
      let upside := size * tp - current_val
      (est_value_str, (if upside ≥ 0 then "+" else "") ++ "$" ++ formatComma2 upside)
    else (est_value_str, "N/A")
  else ("N/A", "N/A")

/-- One row of the open-orders ("Moon Mission") output.  `tpPrice`,
`slPrice` and `currentPrice` keep the raw quantities (the source renders
them as display strings / a float); the timezone-dependent `age` string is
omitted; the `ufos`/`stars` depth lists are modelled separately by
`depthKeep`. -/
structure OpenRecord where
  productId : String
  side : String
  tpPrice : ℚ
  slPrice : Option ℚ
  currentPrice : ℚ
  health : ℤ
  missionValue : String
  upside : String
  rawCreatedTime : Option Nat
deriving DecidableEq

/-- Loop-carried state of the order loop in `get_open_orders_data`: the
price-call index, the function-scoped `est_value_str`/`upside_str`
variables (`none` = not yet assigned in any iteration, so referencing them
raises `UnboundLocalError`), and the accumulated `orders_data`. -/
structure LoopSt where
  k : Nat
  vs : Option (String × String)
  acc : List OpenRecord
deriving DecidableEq

/-- One iteration of the order loop of `get_open_orders_data` (lines
172-481).  Note that the `orders_data.append` of the source sits OUTSIDE
the `if tp > 0 or sl > 0` guard: every order is appended, and the appended
value/upside strings are whatever the guard last assigned (in this or any
previous iteration); if they were never assigned the reference raises
(`.error`). -/
def stepOrder (oracle : Nat → String → Option ℚ) (o : ApiOrder) (st : LoopSt) :
    Except Unit LoopSt :=
  let base := baseAsset o.productId
  let current_unit_price := (oracle st.k base).getD 0
  match parseConfig oracle (st.k + 1) base o.orderConfiguration with
  | (tp_price, sl_price, size, k2) =>
    let health := health_score tp_price sl_price current_unit_price o.side
    let vs2 := if tp_price > 0 ∨ sl_price > 0 then some (valuationStrings size current_unit_price tp_price) else st.vs
    match vs2 with
    | none => .error ()
    | some p =>
      .ok { k := k2, vs := some p,
            acc := st.acc ++ [{ productId := o.productId, side := o.side,
                                tpPrice := tp_price,
                                slPrice := if sl_price > 0 then some sl_price else none,
                                currentPrice := current_unit_price,
                                health := health,
                                missionValue := p.1, upside := p.2,
                                rawCreatedTime := o.createdTime }] }

/-- Folds `stepOrder` over the order list, propagating the first raised
exception. -/
def stepAll (oracle : Nat → String → Option ℚ) : List ApiOrder → LoopSt → Except Unit LoopSt
  | [], st => .ok st
  | o :: rest, st =>
    match stepOrder oracle o st with
    | .ok st2 => stepAll oracle rest st2
    | .error e => .error e

/-- Strict "later than" on optional timestamps, with a missing timestamp
(`pd.Timestamp.min` default) earlier than everything. -/
def optTimeLt : Option Nat → Option Nat → Bool
  | none, some _ => true
  | some a, some b => a < b
  | _, none => false

/-- Stable insertion for a descending sort by an optional timestamp key,
matching Python's stable `list.sort(key=..., reverse=True)`. -/
def insertDescBy {α : Type} (key : α → Option Nat) (x : α) : List α → List α
  | [] => [x]
  | y :: ys => if optTimeLt (key y) (key x) then x :: y :: ys else y :: insertDescBy key x ys

/-- Stable descending sort by an optional timestamp key. -/
def sortDescBy {α : Type} (key : α → Option Nat) (l : List α) : List α :=
  l.foldl (fun acc x => insertDescBy key x acc) []

/-- `get_open_orders_data` (minus the per-order depth lists, which
`depthKeep` models): returns the mission rows sorted newest-first, plus a
flag recording whether the function aborted with `st.error` and an empty
list (its outer `except` handler). -/
def get_open_orders_data (oracle : Nat → String → Option ℚ) (orders : List ApiOrder) :
    List OpenRecord × Bool :=
  match stepAll oracle orders { k := 0, vs := none, acc := [] } with
  | .ok st => (sortDescBy (fun r => r.rawCreatedTime) st.acc, false)
  | .error _ => ([], true)

/-- One order-book level prepared for display (the fields of the
`raw_ufos`/`raw_stars` dicts that the spacing filter and slot allocation
read; the `price`/`size`/`val_fmt` display strings are not consumed by
them and are omitted). -/
structure DepthItem where
  rawSize : ℚ
  pct : ℤ
deriving DecidableEq

/-- Insert an item into a list that is sorted by `rawSize` descending,
after all items of greater-or-equal size (so the overall sort is stable,
like Python's `sorted(..., reverse=True)`). -/
def insertBySize (x : DepthItem) : List DepthItem → List DepthItem
  | [] => [x]
  | y :: ys => if y.rawSize < x.rawSize then x :: y :: ys else y :: insertBySize x ys

/-- Stable sort by `rawSize` descending (`sorted(items, key=raw_size, reverse=True)`). -/
def sortBySizeDesc (l : List DepthItem) : List DepthItem :=
  l.foldl (fun acc x => insertBySize x acc) []

/-- Greedy spacing loop of `filter_spaced_items`: keep an item unless its
`pct` is within `min_dist` of an already-taken position, stopping once
`target_count` items are kept. -/
def keepSpaced (target_count min_dist : ℤ) : List DepthItem → ℤ → List ℤ → List DepthItem
  | [], _, _ => []
  | item :: rest, kept_count, taken =>
    if target_count ≤ kept_count then []
    else if taken.any (fun p => |p - item.pct| < min_dist) then
      keepSpaced target_count min_dist rest kept_count taken
    else item :: keepSpaced target_count min_dist rest (kept_count + 1) (item.pct :: taken)

/-- `filter_spaced_items` (lines 250-277): sort by size descending, then
greedily keep up to `target_count` items pairwise at least `min_dist`
apart in `pct`. -/
def filter_spaced_items (items : List DepthItem) (target_count min_dist : ℤ) : List DepthItem :=
  keepSpaced target_count min_dist (sortBySizeDesc items) 0 []

/-- Slot allocation of the dynamic density logic (lines 363-386): split 24
display slots between asks ("UFOs") and bids ("stars") proportionally to
total accumulated volume, with a floor of 3 per side, trimming the larger
side if the floors overshoot; `(10, 10)` when there is no volume at all. -/
def allocCounts (ask_vol_accum bid_vol_accum : ℚ) : ℤ × ℤ :=
  let total_slots : ℤ := 24
  let total_vol := ask_vol_accum + bid_vol_accum
  if total_vol > 0 then
    let ufo_share := ask_vol_accum / total_vol
    let star_share := bid_vol_accum / total_vol
    let ufo_count := max 3 (truncToZero ((24 : ℚ) * ufo_share))
    let star_count := max 3 (truncToZero ((24 : ℚ) * star_share))
    if ufo_count + star_count > total_slots then
      if ufo_count > star_count then (total_slots - star_count, star_count)
      else (ufo_count, total_slots - ufo_count)
    else (ufo_count, star_count)
  else (10, 10)

/-- Depth selection for one mission (lines 363-397): allocate slot counts
from the accumulated volumes, then apply the spacing filter with
`min_dist = 4` to each side's candidate list. -/
def depthKeep (raw_ufos raw_stars : List DepthItem) (ask_vol_accum bid_vol_accum : ℚ) :
    List DepthItem × List DepthItem :=
  let counts := allocCounts ask_vol_accum bid_vol_accum
  (filter_spaced_items raw_ufos counts.1 4, filter_spaced_items raw_stars counts.2 4)

/-- Outcome classification of a filled SELL (lines 528-556 of
`get_mission_history`). -/
def missionStatusOf (oconf : Option OrderConf) (filled_price : ℚ) : String :=
  match oconf with
  | none => "UNKNOWN"
  | some (.limitGtc _ _) => "SUCCESS"
  | some (.limitGtd _ _) => "SUCCESS"
  | some (.bracketGtc lp _ _) =>
      if filled_price ≥ lp.getD 0 then "SUCCESS" else "CRASH LANDED"
  | some (.stopLimitGtc _ _ _) => "CRASH LANDED"
  | some (.stopLimitGtd _ _ _) => "CRASH LANDED"
  | some .market => "ABORTED"
  | some .other => "ABORTED"

/-- First pass of the BUY matcher (lines 583-597): the first BUY in list
order whose fill time is present and strictly earlier than `sell_time` and
whose filled size is within 1% of the SELL's filled size. -/
def findSizeMatch (sell_time : Nat) (size : ℚ) : List ApiOrder → Option ApiOrder
  | [] => none
  | b :: rest =>
    match b.lastFillTime with
    | none => findSizeMatch sell_time size rest
    | some t =>
      if t < sell_time then
        (if |b.filledSize - size| < size * (1/100) then some b
         else findSizeMatch sell_time size rest)
      else findSizeMatch sell_time size rest

/-- Fallback pass of the BUY matcher (lines 600-609): the first BUY in list
order whose fill time is present and strictly earlier than `sell_time`. -/
def findEarlier (sell_time : Nat) : List ApiOrder → Option ApiOrder
  | [] => none
  | b :: rest =>
    match b.lastFillTime with
    | none => findEarlier sell_time rest
    | some t => if t < sell_time then some b else findEarlier sell_time rest

/-- The two-tier BUY matcher of `get_mission_history`. -/
def findMatchedBuy (buys : List ApiOrder) (sell_time : Nat) (size : ℚ) : Option ApiOrder :=
  match findSizeMatch sell_time size buys with
  | some b => some b
  | none => findEarlier sell_time buys

/-- One row of the mission-history output (the timezone-dependent `time`
display string is omitted; `rawTime` is the sort key, `none` standing for
the `pd.Timestamp.min` default). -/
structure HistRecord where
  id : String
  product : String
  proceeds : String
  price : String
  rawTime : Option Nat
  size : String
  fees : String
  profit : String
  rawProfit : ℚ
  status : String
deriving DecidableEq

/-- The BUY index of `get_mission_history` (lines 512-517) restricted to one
product: all BUY-side orders of the fetched list, in their original
(newest-first) order. -/
def buysFor (orders : List ApiOrder) (pid : String) : List ApiOrder :=
  orders.filter (fun o => o.side == "BUY" && o.productId == pid)

/-- Processing of one filled SELL in `get_mission_history` (lines 528-652):
classify the outcome, compute proceeds, match a prior BUY and derive the
profit fields.  A SELL with no fill time uses `now` (`datetime.now()`) as
its reference time. -/
def processSell (now : Nat) (buys : List ApiOrder) (o : ApiOrder) : HistRecord :=
  let mission_status := missionStatusOf o.orderConfiguration o.averageFilledPrice
  let size := o.filledSize
  let sell_price := o.averageFilledPrice
  let sell_total_val := size * sell_price
  let sell_fees := o.totalFees
  let sell_proceeds := sell_total_val - sell_fees
  let sell_time := o.lastFillTime.getD now
  match findMatchedBuy buys sell_time size with
  | some b =>
    let cost_basis := b.filledSize * b.averageFilledPrice + b.totalFees
    let net_profit := sell_proceeds - cost_basis
    { id := o.orderId, product := o.productId,
      proceeds := "$" ++ formatComma2 sell_proceeds,
      price := "$" ++ formatComma2 sell_price,
      rawTime := o.lastFillTime,
      size := formatFixed4 size,
      fees := "$" ++ formatComma2 sell_fees,
      profit := (if net_profit ≥ 0 then "+" else "") ++ "$" ++ formatComma2 net_profit,
      rawProfit := net_profit,
      status := mission_status }
  | none =>
    { id := o.orderId, product := o.productId,
      proceeds := "$" ++ formatComma2 sell_proceeds,
      price := "$" ++ formatComma2 sell_price,
      rawTime := o.lastFillTime,
      size := formatFixed4 size,
      fees := "$" ++ formatComma2 sell_fees,
      profit := "N/A",
      rawProfit := -999999,
      status := mission_status }

/-- The history loop of `get_mission_history` (lines 519-652): walk the
fetched orders, break once `limit` rows are collected, skip non-SELLs, and
process each SELL against the BUY index. -/
def buildHistory (now limit : Nat) (allOrders : List ApiOrder) :
    List ApiOrder → List HistRecord → List HistRecord
  | [], acc => acc
  | o :: rest, acc =>
    if limit ≤ acc.length then acc
    else if o.side ≠ "SELL" then buildHistory now limit allOrders rest acc
    else buildHistory now limit allOrders rest
      (acc ++ [processSell now (buysFor allOrders o.productId) o])

/-- `get_mission_history` over an already-fetched order list (the source
additionally asks the client for `limit*5` FILLED orders; that network
fetch is the input here).  Output is sorted by fill time descending. -/
def get_mission_history (now : Nat) (orders : List ApiOrder) (limit : Nat) : List HistRecord :=
  sortDescBy (fun h => h.rawTime) (buildHistory now limit orders orders [])

/-- Truncation towards zero agrees with `⌊·⌋` on non-negative inputs. -/
theorem truncToZero_of_nonneg {q : ℚ} (h : 0 ≤ q) : truncToZero q = ⌊q⌋ := by
  unfold truncToZero
  exact if_pos h

/-- Truncation towards zero of a non-negative rational is non-negative. -/
theorem truncToZero_nonneg {q : ℚ} (h : 0 ≤ q) : 0 ≤ truncToZero q := by
  rw [truncToZero_of_nonneg h]
  exact Int.floor_nonneg.mpr h

/-- Truncation towards zero is monotone on non-negative inputs. -/
theorem truncToZero_mono {a b : ℚ} (ha : 0 ≤ a) (hab : a ≤ b) :
    truncToZero a ≤ truncToZero b := by
  rw [truncToZero_of_nonneg ha, truncToZero_of_nonneg (le_trans ha hab)]
  exact Int.floor_le_floor hab

/-- A positive lower bound on a truncation transfers to the rational itself. -/
theorem le_of_le_truncToZero {q : ℚ} {n : ℤ} (hn : 0 < n) (h : n ≤ truncToZero q) :
    (n : ℚ) ≤ q := by
  unfold truncToZero at h
  split_ifs at h with hq
  · exact_mod_cast Int.le_floor.mp h
  · exfalso
    have h0 : (0:ℚ) ≤ -q := by linarith [lt_of_not_ge hq]
    have : 0 ≤ ⌊-q⌋ := Int.floor_nonneg.mpr h0
    omega

/-- The interpolating branch of the health score, in closed form. -/
theorem health_score_interp (t f x : ℚ) (side : String) (ht : 0 < t) (hf : 0 < f)
    (hx : 0 < x) (hne : t - f ≠ 0) :
    health_score t f x side = max 0 (min 100 (truncToZero ((x - f) / (t - f) * 100))) := by
  unfold health_score
  rw [if_pos ⟨ht, hf, hx⟩, if_pos hne]

/-- C5: for every open order processed by the open-orders derivation,
whatever the values of target, floor, current price and side, the emitted
health score lies in the closed interval [0, 100]; and whenever the inputs
are insufficient to compute a score (no positive current price, or neither
a positive target nor a positive floor) it is exactly the default 50. -/
theorem health_score_range_default (tp sl cur : ℚ) (side : String) :
    (0 ≤ health_score tp sl cur side ∧ health_score tp sl cur side ≤ 100) ∧
    (cur ≤ 0 ∨ (tp ≤ 0 ∧ sl ≤ 0) → health_score tp sl cur side = 50) := by
  constructor
  · unfold health_score
    split_ifs with h1 h2 h3 h4 h5 h6 h7
    · exact ⟨le_max_left 0 _, max_le (by norm_num) (min_le_left _ _)⟩
    · norm_num
    · norm_num
    · norm_num
    · have hx : 0 ≤ truncToZero ((cur - sl) / (sl * (1/10)) * 50) := by
        apply truncToZero_nonneg
        have hnum : 0 ≤ cur - sl := by linarith [lt_of_not_ge (fun hge => h6 hge)]
        have hden : 0 < sl * (1/10) := by
          have := h4.1
          positivity
        positivity
      constructor
      · have : 0 ≤ min 50 (truncToZero ((cur - sl) / (sl * (1/10)) * 50)) :=
          le_min (by norm_num) hx
        linarith
      · have : min 50 (truncToZero ((cur - sl) / (sl * (1/10)) * 50)) ≤ 50 :=
          min_le_left _ _
        linarith
    · norm_num
    · refine ⟨le_max_left 0 _, max_le (by norm_num) ?_⟩
      calc min 99 (truncToZero ((1 - (sl - cur) / (sl * (1/10))) * 100)) ≤ 99 :=
            min_le_left _ _
        _ ≤ 100 := by norm_num
    · norm_num
  · intro h
    unfold health_score
    split_ifs with h1 h2 h3 h4 h5 h6 h7
    · exfalso
      rcases h with h | ⟨ha, hb⟩
      · exact absurd h1.2.2 (not_lt.mpr h)
      · exact absurd h1.1 (not_lt.mpr ha)
    · rfl
    · rfl
    · exfalso
      rcases h with h | ⟨ha, hb⟩
      · exact absurd h4.2 (not_lt.mpr h)
      · exact absurd h4.1 (not_lt.mpr hb)
    · exfalso
      rcases h with h | ⟨ha, hb⟩
      · exact absurd h4.2 (not_lt.mpr h)
      · exact absurd h4.1 (not_lt.mpr hb)
    · exfalso
      rcases h with h | ⟨ha, hb⟩
      · exact absurd h4.2 (not_lt.mpr h)
      · exact absurd h4.1 (not_lt.mpr hb)
    · exfalso
      rcases h with h | ⟨ha, hb⟩
      · exact absurd h4.2 (not_lt.mpr h)
      · exact absurd h4.1 (not_lt.mpr hb)
    · rfl

/-- C5 witness: with every input zero the score is the default 50 and lies
in the interval. -/
theorem health_score_range_default_witness :
    ((0:ℚ) ≤ 0 ∨ ((0:ℚ) ≤ 0 ∧ (0:ℚ) ≤ 0)) ∧ health_score 0 0 0 "SELL" = 50 :=
  ⟨Or.inl le_rfl, (health_score_range_default 0 0 0 "SELL").2 (Or.inl le_rfl)⟩

/-- C6: with target > floor > 0 and floor ≤ current ≤ target the health
score is monotone non-decreasing in the current price, lies in [0, 100],
and hits exactly 0 at the floor and exactly 100 at the target (any side). -/
theorem health_score_interp_monotone (side : String) (t f c c2 : ℚ)
    (htf : f < t) (hf : 0 < f) (hfc : f ≤ c) (hcc : c ≤ c2) (hct : c2 ≤ t) :
    (0 ≤ health_score t f c side ∧ health_score t f c side ≤ 100) ∧
    health_score t f c side ≤ health_score t f c2 side ∧
    health_score t f f side = 0 ∧
    health_score t f t side = 100 := by
  have ht : 0 < t := lt_trans hf htf
  have hne : t - f ≠ 0 := sub_ne_zero.mpr (ne_of_gt htf)
  have hden : 0 < t - f := sub_pos.mpr htf
  have hc : 0 < c := lt_of_lt_of_le hf hfc
  have hc2 : 0 < c2 := lt_of_lt_of_le hc hcc
  refine ⟨?_, ?_, ?_, ?_⟩
  · rw [health_score_interp t f c side ht hf hc hne]
    exact ⟨le_max_left 0 _, max_le (by norm_num) (min_le_left _ _)⟩
  · rw [health_score_interp t f c side ht hf hc hne,
        health_score_interp t f c2 side ht hf hc2 hne]
    have harg : (c - f) / (t - f) * 100 ≤ (c2 - f) / (t - f) * 100 := by
      have : (c - f) / (t - f) ≤ (c2 - f) / (t - f) :=
        (div_le_div_iff_of_pos_right hden).mpr (by linarith)
      linarith
    have h0 : (0:ℚ) ≤ (c - f) / (t - f) * 100 := by
      have : (0:ℚ) ≤ (c - f) / (t - f) := div_nonneg (by linarith) (le_of_lt hden)
      linarith
    exact max_le_max le_rfl (min_le_min le_rfl (truncToZero_mono h0 harg))
  · rw [health_score_interp t f f side ht hf hf hne]
    have : (f - f) / (t - f) * 100 = 0 := by
      rw [sub_self, zero_div, zero_mul]
    rw [this, truncToZero_of_nonneg le_rfl, Int.floor_zero]
    norm_num
  · rw [health_score_interp t f t side ht hf ht hne]
    have : (t - f) / (t - f) * 100 = 100 := by
      rw [div_self hne, one_mul]
    rw [this]
    have h100 : truncToZero (100 : ℚ) = 100 := by
      rw [truncToZero_of_nonneg (by norm_num)]
      norm_num
    rw [h100]
    norm_num

/-- C6 witness: the 80/120 bracket scenario, with 0 at the floor, 100 at the
target and monotone steps in between. -/
theorem health_score_interp_monotone_witness :
    (0 ≤ health_score 120 80 100 "SELL" ∧ health_score 120 80 100 "SELL" ≤ 100) ∧
    health_score 120 80 100 "SELL" ≤ health_score 120 80 110 "SELL" ∧
    health_score 120 80 80 "SELL" = 0 ∧
    health_score 120 80 120 "SELL" = 100 :=
  health_score_interp_monotone "SELL" 120 80 100 110 (by norm_num) (by norm_num)
    (by norm_num) (by norm_num) (by norm_num)

/-- The status field of a history row is the classification of the sell,
whether or not a BUY was matched. -/
theorem processSell_status (now : Nat) (buys : List ApiOrder) (o : ApiOrder) :
    (processSell now buys o).status = missionStatusOf o.orderConfiguration o.averageFilledPrice := by
  simp only [processSell]
  cases findMatchedBuy buys (o.lastFillTime.getD now) o.filledSize <;> rfl

/-- C3: the outcome classification of every filled SELL is exactly: limit
(GTC or GTD) → SUCCESS unconditionally; bracket → SUCCESS iff the average
filled price is at least the bracket's limit price (equality is SUCCESS),
else CRASH LANDED; stop-limit (GTC or GTD) → CRASH LANDED regardless of
price; market or unrecognized configuration → ABORTED. -/
theorem mission_status_classification (now : Nat) (buys : List ApiOrder) (o : ApiOrder) :
    (∀ lp bs, o.orderConfiguration = some (.limitGtc lp bs) →
        (processSell now buys o).status = "SUCCESS") ∧
    (∀ lp bs, o.orderConfiguration = some (.limitGtd lp bs) →
        (processSell now buys o).status = "SUCCESS") ∧
    (∀ lp stp bs, o.orderConfiguration = some (.bracketGtc lp stp bs) →
        (lp.getD 0 ≤ o.averageFilledPrice → (processSell now buys o).status = "SUCCESS") ∧
        (o.averageFilledPrice < lp.getD 0 → (processSell now buys o).status = "CRASH LANDED")) ∧
    (∀ stp lp bs, o.orderConfiguration = some (.stopLimitGtc stp lp bs) →
        (processSell now buys o).status = "CRASH LANDED") ∧
    (∀ stp lp bs, o.orderConfiguration = some (.stopLimitGtd stp lp bs) →
        (processSell now buys o).status = "CRASH LANDED") ∧
    (o.orderConfiguration = some .market → (processSell now buys o).status = "ABORTED") ∧
    (o.orderConfiguration = some .other → (processSell now buys o).status = "ABORTED") := by
  simp only [processSell_status now buys o]
  refine ⟨?_, ?_, ?_, ?_, ?_, ?_, ?_⟩
  · intro lp bs h
    rw [h]
    rfl
  · intro lp bs h
    rw [h]
    rfl
  · intro lp stp bs h
    rw [h]
    constructor
    · intro hle
      simp [missionStatusOf, hle]
    · intro hlt
      simp [missionStatusOf, not_le.mpr hlt]
  · intro stp lp bs h
    rw [h]
    rfl
  · intro stp lp bs h
    rw [h]
    rfl
  · intro h
    rw [h]
    rfl
  · intro h
    rw [h]
    rfl

/-- A concrete filled bracket SELL whose fill price equals its limit price. -/
def bracketEqOrder : ApiOrder :=
  { orderId := "s1", productId := "ETH-USD", side := "SELL",
    orderConfiguration := some (.bracketGtc (some 50) (some 45) (some 2)),
    averageFilledPrice := 50, filledSize := 2, totalFees := 1,
    lastFillTime := some 100, createdTime := none }

/-- C3 witness: a bracket SELL filled exactly at its limit price classifies
as SUCCESS. -/
theorem mission_status_classification_witness :
    (processSell 0 [] bracketEqOrder).status = "SUCCESS" :=
  ((mission_status_classification 0 [] bracketEqOrder).2.2.1 (some 50) (some 45) (some 2)
    rfl).1 (by simp [bracketEqOrder])

/-- C8: price resolution returns exactly 1 for USD and USDC independently of
the exchange (no call is consulted); otherwise it returns the best bid in
USD, falls back to the best bid in USDC when the USD quote is unavailable
(no bids, or the call raised), and returns `none` — never an exception —
when both are unavailable. -/
theorem get_asset_price_resolution (book book2 : String → Except Unit (Option ℚ))
    (asset : String) :
    (asset = "USD" ∨ asset = "USDC" →
        get_asset_price book asset = some 1 ∧
        get_asset_price book asset = get_asset_price book2 asset) ∧
    (asset ≠ "USD" → asset ≠ "USDC" →
        (∀ p : ℚ, book (asset ++ "-USD") = .ok (some p) →
            get_asset_price book asset = some p) ∧
        (book (asset ++ "-USD") = .ok none ∨ book (asset ++ "-USD") = .error () →
            get_asset_price book asset = get_best_bid book (asset ++ "-USDC")) ∧
        (book (asset ++ "-USD") = .ok none ∨ book (asset ++ "-USD") = .error () →
         book (asset ++ "-USDC") = .ok none ∨ book (asset ++ "-USDC") = .error () →
            get_asset_price book asset = none)) := by
  constructor
  · intro h
    constructor
    · unfold get_asset_price
      rw [if_pos h]
    · unfold get_asset_price
      rw [if_pos h, if_pos h]
  · intro h1 h2
    have hcond : ¬ (asset = "USD" ∨ asset = "USDC") := by
      rintro (h | h)
      exacts [h1 h, h2 h]
    refine ⟨?_, ?_, ?_⟩
    · intro p hp
      unfold get_asset_price get_best_bid
      rw [if_neg hcond, hp]
    · intro hun
      have hbb : get_best_bid book (asset ++ "-USD") = none := by
        unfold get_best_bid
        rcases hun with h | h <;> rw [h]
      unfold get_asset_price
      rw [if_neg hcond, hbb]
    · intro hun hun2
      have hbb : get_best_bid book (asset ++ "-USD") = none := by
        unfold get_best_bid
        rcases hun with h | h <;> rw [h]
      have hbb2 : get_best_bid book (asset ++ "-USDC") = none := by
        unfold get_best_bid
        rcases hun2 with h | h <;> rw [h]
      unfold get_asset_price
      rw [if_neg hcond, hbb, hbb2]

/-- A concrete book: the BTC-USD call raises, BTC-USDC has a best bid of 7,
everything else has no bids. -/
def bookW : String → Except Unit (Option ℚ) := fun s =>
  if s = "BTC-USD" then .error () else if s = "BTC-USDC" then .ok (some 7) else .ok none

/-- C8 witness: USD resolves to 1 without consulting the book, and BTC falls
back to the USDC quote 7 after the USD call raises. -/
theorem get_asset_price_resolution_witness :
    get_asset_price bookW "USD" = some 1 ∧ get_asset_price bookW "BTC" = some 7 := by
  constructor
  · exact ((get_asset_price_resolution bookW bookW "USD").1 (Or.inl rfl)).1
  · have h := (get_asset_price_resolution bookW bookW "BTC").2 (by decide) (by decide)
    have h2 := h.2.1 (Or.inr rfl)
    rw [h2]
    rfl

/-- A BUY candidate whose fill time is present and strictly earlier than the
sell's reference time. -/
def earlierOnly (sell_time : Nat) (b : ApiOrder) : Prop :=
  ∃ t, b.lastFillTime = some t ∧ t < sell_time

/-- An earlier BUY whose filled size differs from the sell's filled size by
less than 1% of the sell's size. -/
def earlierClose (sell_time : Nat) (size : ℚ) (b : ApiOrder) : Prop :=
  earlierOnly sell_time b ∧ |b.filledSize - size| < size * (1/100)

/-- Whatever the first matcher pass returns is earlier and size-close. -/
theorem findSizeMatch_sound {st : Nat} {sz : ℚ} {l : List ApiOrder} {b : ApiOrder}
    (h : findSizeMatch st sz l = some b) : earlierClose st sz b := by
  induction l with
  | nil => simp [findSizeMatch] at h
  | cons x rest ih =>
    simp only [findSizeMatch] at h
    rcases hx : x.lastFillTime with _ | t
    · rw [hx] at h
      exact ih h
    · simp only [hx] at h
      by_cases hlt : t < st
      · rw [if_pos hlt] at h
        by_cases hcl : |x.filledSize - sz| < sz * (1/100)
        · rw [if_pos hcl] at h
          cases h
          exact ⟨⟨t, hx, hlt⟩, hcl⟩
        · rw [if_neg hcl] at h
          exact ih h
      · rw [if_neg hlt] at h
        exact ih h

/-- Whatever the fallback matcher pass returns is strictly earlier. -/
theorem findEarlier_sound {st : Nat} {l : List ApiOrder} {b : ApiOrder}
    (h : findEarlier st l = some b) : earlierOnly st b := by
  induction l with
  | nil => simp [findEarlier] at h
  | cons x rest ih =>
    simp only [findEarlier] at h
    rcases hx : x.lastFillTime with _ | t
    · rw [hx] at h
      exact ih h
    · simp only [hx] at h
      by_cases hlt : t < st
      · rw [if_pos hlt] at h
        cases h
        exact ⟨t, hx, hlt⟩
      · rw [if_neg hlt] at h
        exact ih h

/-- With no earlier size-close candidate the first pass finds nothing. -/
theorem findSizeMatch_eq_none {st : Nat} {sz : ℚ} {l : List ApiOrder}
    (h : ∀ b ∈ l, ¬ earlierClose st sz b) : findSizeMatch st sz l = none := by
  induction l with
  | nil => rfl
  | cons x rest ih =>
    rcases hx : x.lastFillTime with _ | t
    · simp only [findSizeMatch, hx]
      exact ih fun b hb => h b (List.mem_cons_of_mem x hb)
    · simp only [findSizeMatch, hx]
      by_cases hlt : t < st
      · rw [if_pos hlt]
        by_cases hcl : |x.filledSize - sz| < sz * (1/100)
        · exact absurd ⟨⟨t, hx, hlt⟩, hcl⟩ (h x (List.mem_cons_self x rest))
        · rw [if_neg hcl]
          exact ih fun b hb => h b (List.mem_cons_of_mem x hb)
      · rw [if_neg hlt]
        exact ih fun b hb => h b (List.mem_cons_of_mem x hb)

/-- With no earlier candidate at all the fallback pass finds nothing. -/
theorem findEarlier_eq_none {st : Nat} {l : List ApiOrder}
    (h : ∀ b ∈ l, ¬ earlierOnly st b) : findEarlier st l = none := by
  induction l with
  | nil => rfl
  | cons x rest ih =>
    rcases hx : x.lastFillTime with _ | t
    · simp only [findEarlier, hx]
      exact ih fun b hb => h b (List.mem_cons_of_mem x hb)
    · simp only [findEarlier, hx]
      by_cases hlt : t < st
      · exact absurd ⟨t, hx, hlt⟩ (h x (List.mem_cons_self x rest))
      · rw [if_neg hlt]
        exact ih fun b hb => h b (List.mem_cons_of_mem x hb)

/-- The first pass returns the first list element (in given order) that is
earlier and size-close. -/
theorem findSizeMatch_first {st : Nat} {sz : ℚ} {l : List ApiOrder} (i : Nat) (hi : i < l.length)
    (hcl : earlierClose st sz (l.get ⟨i, hi⟩))
    (hprev : ∀ j (hj : j < i), ¬ earlierClose st sz (l.get ⟨j, Nat.lt_trans hj hi⟩)) :
    findSizeMatch st sz l = some (l.get ⟨i, hi⟩) := by
  induction l generalizing i with
  | nil => exact absurd hi (Nat.not_lt_zero i)
  | cons x rest ih =>
    cases i with
    | zero =>
      have hget : (x :: rest).get ⟨0, hi⟩ = x := rfl
      rw [hget] at hcl ⊢
      obtain ⟨⟨t, hx, hlt⟩, hclose⟩ := hcl
      simp only [findSizeMatch, hx, if_pos hlt, if_pos hclose]
    | succ j =>
      have hx0 : ¬ earlierClose st sz x := by
        have := hprev 0 (Nat.succ_pos j)
        simpa using this
      have hjlt : j < rest.length := Nat.lt_of_succ_lt_succ hi
      have hclr : earlierClose st sz (rest.get ⟨j, hjlt⟩) := by
        simpa using hcl
      have hprevr : ∀ j2 (hj2 : j2 < j),
          ¬ earlierClose st sz (rest.get ⟨j2, Nat.lt_trans hj2 hjlt⟩) := by
        intro j2 hj2
        have := hprev (j2 + 1) (Nat.succ_lt_succ hj2)
        simpa using this
      have hrec : findSizeMatch st sz rest = some (rest.get ⟨j, hjlt⟩) :=
        ih j hjlt hclr hprevr
      rcases hx : x.lastFillTime with _ | t
      · simp only [findSizeMatch, hx]
        simpa using hrec
      · simp only [findSizeMatch, hx]
        by_cases hlt : t < st
        · rw [if_pos hlt]
          by_cases hcl2 : |x.filledSize - sz| < sz * (1/100)
          · exact absurd ⟨⟨t, hx, hlt⟩, hcl2⟩ hx0
          · rw [if_neg hcl2]
            simpa using hrec
        · rw [if_neg hlt]
          simpa using hrec

/-- The fallback pass returns the first list element (in given order) that
is strictly earlier. -/
theorem findEarlier_first {st : Nat} {l : List ApiOrder} (i : Nat) (hi : i < l.length)
    (hcl : earlierOnly st (l.get ⟨i, hi⟩))
    (hprev : ∀ j (hj : j < i), ¬ earlierOnly st (l.get ⟨j, Nat.lt_trans hj hi⟩)) :
    findEarlier st l = some (l.get ⟨i, hi⟩) := by
  induction l generalizing i with
  | nil => exact absurd hi (Nat.not_lt_zero i)
  | cons x rest ih =>
    cases i with
    | zero =>
      have hget : (x :: rest).get ⟨0, hi⟩ = x := rfl
      rw [hget] at hcl ⊢
      obtain ⟨t, hx, hlt⟩ := hcl
      simp only [findEarlier, hx, if_pos hlt]
    | succ j =>
      have hx0 : ¬ earlierOnly st x := by
        have := hprev 0 (Nat.succ_pos j)
        simpa using this
      have hjlt : j < rest.length := Nat.lt_of_succ_lt_succ hi
      have hclr : earlierOnly st (rest.get ⟨j, hjlt⟩) := by
        simpa using hcl
      have hprevr : ∀ j2 (hj2 : j2 < j),
          ¬ earlierOnly st (rest.get ⟨j2, Nat.lt_trans hj2 hjlt⟩) := by
        intro j2 hj2
        have := hprev (j2 + 1) (Nat.succ_lt_succ hj2)
        simpa using this
      have hrec : findEarlier st rest = some (rest.get ⟨j, hjlt⟩) :=
        ih j hjlt hclr hprevr
      rcases hx : x.lastFillTime with _ | t
      · simp only [findEarlier, hx]
        simpa using hrec
      · simp only [findEarlier, hx]
        by_cases hlt : t < st
        · exact absurd ⟨t, hx, hlt⟩ hx0
        · rw [if_neg hlt]
          simpa using hrec

/-- C1: the BUY matcher follows exactly the two-tier preference.  Any
returned BUY is strictly earlier than the sell time; if some earlier BUY is
size-close (within 1% of the sell's size) the first such BUY in the given
(newest-first) order is returned; if none is, the first strictly-earlier
BUY is returned; with no strictly-earlier BUY the matcher returns nothing
and the history row reports the profit as the "N/A" sentinel. -/
theorem findMatchedBuy_two_tier (buys : List ApiOrder) (st : Nat) (sz : ℚ) :
    (∀ b, findMatchedBuy buys st sz = some b → ∃ t, b.lastFillTime = some t ∧ t < st) ∧
    (∀ (i : Nat) (hi : i < buys.length),
        earlierClose st sz (buys.get ⟨i, hi⟩) →
        (∀ j (hj : j < i), ¬ earlierClose st sz (buys.get ⟨j, Nat.lt_trans hj hi⟩)) →
        findMatchedBuy buys st sz = some (buys.get ⟨i, hi⟩)) ∧
    ((∀ b ∈ buys, ¬ earlierClose st sz b) →
      ∀ (i : Nat) (hi : i < buys.length),
        earlierOnly st (buys.get ⟨i, hi⟩) →
        (∀ j (hj : j < i), ¬ earlierOnly st (buys.get ⟨j, Nat.lt_trans hj hi⟩)) →
        findMatchedBuy buys st sz = some (buys.get ⟨i, hi⟩)) ∧
    ((∀ b ∈ buys, ¬ earlierOnly st b) → findMatchedBuy buys st sz = none) ∧
    (∀ (now2 : Nat) (o : ApiOrder), o.lastFillTime = some st → o.filledSize = sz →
        (∀ b ∈ buys, ¬ earlierOnly st b) →
        (processSell now2 buys o).profit = "N/A" ∧
        (processSell now2 buys o).rawProfit = -999999) := by
  have hnone : (∀ b ∈ buys, ¬ earlierOnly st b) → findMatchedBuy buys st sz = none := by
    intro h
    unfold findMatchedBuy
    rw [findSizeMatch_eq_none (fun b hb hec => h b hb hec.1), findEarlier_eq_none h]
  refine ⟨?_, ?_, ?_, hnone, ?_⟩
  · intro b hb
    unfold findMatchedBuy at hb
    rcases hsm : findSizeMatch st sz buys with _ | b2
    · rw [hsm] at hb
      exact findEarlier_sound hb
    · rw [hsm] at hb
      cases hb
      exact (findSizeMatch_sound hsm).1
  · intro i hi hcl hprev
    unfold findMatchedBuy
    rw [findSizeMatch_first i hi hcl hprev]
  · intro hnc i hi hcl hprev
    unfold findMatchedBuy
    rw [findSizeMatch_eq_none hnc, findEarlier_first i hi hcl hprev]
  · intro now2 o hfill hsz hno
    have hm : findMatchedBuy buys (o.lastFillTime.getD now2) o.filledSize = none := by
      rw [hfill, hsz]
      exact hnone hno
    simp [processSell, hm]

/-- A BUY that filled after the reference sell time. -/
def buyLate : ApiOrder :=
  { orderId := "b1", productId := "ETH-USD", side := "BUY", orderConfiguration := none,
    averageFilledPrice := 45, filledSize := 2, totalFees := 1,
    lastFillTime := some 150, createdTime := none }

/-- An earlier BUY whose size matches the sell's within 1%. -/
def buyCloseSz : ApiOrder :=
  { orderId := "b2", productId := "ETH-USD", side := "BUY", orderConfiguration := none,
    averageFilledPrice := 40, filledSize := 2, totalFees := 1,
    lastFillTime := some 50, createdTime := none }

/-- An even earlier BUY with a very different size. -/
def buyFarSz : ApiOrder :=
  { orderId := "b3", productId := "ETH-USD", side := "BUY", orderConfiguration := none,
    averageFilledPrice := 30, filledSize := 10, totalFees := 1,
    lastFillTime := some 40, createdTime := none }

/-- C1 witness: among a later BUY, an earlier size-close BUY and an earlier
far-sized BUY, the matcher picks the size-close one, skipping the later
one. -/
theorem findMatchedBuy_two_tier_witness :
    findMatchedBuy [buyLate, buyCloseSz, buyFarSz] 100 2 = some buyCloseSz := by
  have hi : (1 : Nat) < ([buyLate, buyCloseSz, buyFarSz] : List ApiOrder).length := by
    norm_num
  have hcl : earlierClose 100 2 (([buyLate, buyCloseSz, buyFarSz] : List ApiOrder).get ⟨1, hi⟩) := by
    refine ⟨⟨50, rfl, by norm_num⟩, ?_⟩
    norm_num [buyCloseSz]
  have hprev : ∀ j (hj : j < 1),
      ¬ earlierClose 100 2 (([buyLate, buyCloseSz, buyFarSz] : List ApiOrder).get
          ⟨j, Nat.lt_trans hj hi⟩) := by
    intro j hj
    have hj0 : j = 0 := Nat.lt_one_iff.mp hj
    subst hj0
    rintro ⟨⟨t, ht, hlt⟩, -⟩
    have h150 : some 150 = some t := ht
    have : (150 : Nat) = t := by
      injection h150
    omega
  exact (findMatchedBuy_two_tier [buyLate, buyCloseSz, buyFarSz] 100 2).2.1 1 hi hcl hprev

/-- C2: when a SELL is matched to a BUY, the reported raw profit is exactly
(sell size × sell average price − sell fees) − (buy size × buy average
price + buy fees), in exact arithmetic. -/
theorem profit_formula (now : Nat) (buys : List ApiOrder) (o b : ApiOrder)
    (h : findMatchedBuy buys (o.lastFillTime.getD now) o.filledSize = some b) :
    (processSell now buys o).rawProfit =
      (o.filledSize * o.averageFilledPrice - o.totalFees)
        - (b.filledSize * b.averageFilledPrice + b.totalFees) := by
  simp [processSell, h]

/-- Round-half-even fixes integers. -/
theorem roundHalfEven_intCast (z : ℤ) : roundHalfEven (z : ℚ) = z := by
  simp only [roundHalfEven]
  rw [Int.floor_intCast, sub_self]
  norm_num

/-- The money formatter renders 37/2 as 18.50. -/
theorem formatComma2_half37 : formatComma2 (37/2) = "18.50" := by
  have h : (37/2 : ℚ) * 100 = ((1850:ℤ) : ℚ) := by norm_num
  have hneg : ¬ ((37/2 : ℚ) < 0) := by norm_num
  simp only [formatComma2]
  rw [h, roundHalfEven_intCast, if_neg hneg]
  rfl

/-- The money formatter renders 99 as 99.00. -/
theorem formatComma2_ninetynine : formatComma2 99 = "99.00" := by
  have h : (99 : ℚ) * 100 = ((9900:ℤ) : ℚ) := by norm_num
  have hneg : ¬ ((99 : ℚ) < 0) := by norm_num
  simp only [formatComma2]
  rw [h, roundHalfEven_intCast, if_neg hneg]
  rfl

/-- The SELL fill of the spec scenario: size 2 at price 50 with fees 1. -/
def sellScenario : ApiOrder :=
  { orderId := "s2", productId := "ETH-USD", side := "SELL",
    orderConfiguration := some (.limitGtc (some 50) (some 2)),
    averageFilledPrice := 50, filledSize := 2, totalFees := 1,
    lastFillTime := some 100, createdTime := none }

/-- The matched BUY of the spec scenario: size 2 at price 40 with fees 0.5. -/
def buyScenario : ApiOrder :=
  { orderId := "b4", productId := "ETH-USD", side := "BUY",
    orderConfiguration := some (.limitGtc (some 40) (some 2)),
    averageFilledPrice := 40, filledSize := 2, totalFees := 1/2,
    lastFillTime := some 50, createdTime := none }

/-- C2 witness: proceeds 99, cost 80.5, profit exactly 18.50, displayed
with the explicit leading sign. -/
theorem profit_formula_witness :
    findMatchedBuy [buyScenario] (sellScenario.lastFillTime.getD 0) sellScenario.filledSize
      = some buyScenario ∧
    (processSell 0 [buyScenario] sellScenario).rawProfit = 37/2 ∧
    (processSell 0 [buyScenario] sellScenario).profit = "+$18.50" ∧
    (processSell 0 [buyScenario] sellScenario).proceeds = "$99.00" := by
  have hm : findMatchedBuy [buyScenario] (sellScenario.lastFillTime.getD 0)
      sellScenario.filledSize = some buyScenario := by
    norm_num [findMatchedBuy, findSizeMatch, sellScenario, buyScenario]
  refine ⟨hm, ?_, ?_, ?_⟩
  · rw [profit_formula 0 [buyScenario] sellScenario buyScenario hm]
    norm_num [sellScenario, buyScenario]
  · have hp := profit_formula 0 [buyScenario] sellScenario buyScenario hm
    simp only [processSell, hm]
    norm_num [sellScenario, buyScenario]
    rw [formatComma2_half37]
    rfl
  · simp only [processSell, hm]
    norm_num [sellScenario, buyScenario]
    rw [formatComma2_ninetynine]
    rfl

/-- The spacing loop keeps at most `target_count - kept_count` further items. -/
theorem keepSpaced_length (t d : ℤ) :
    ∀ (l : List DepthItem) (cnt : ℤ) (taken : List ℤ),
      (keepSpaced t d l cnt taken).length ≤ (t - cnt).toNat := by
  intro l
  induction l with
  | nil =>
    intro cnt taken
    simp [keepSpaced]
  | cons x rest ih =>
    intro cnt taken
    simp only [keepSpaced]
    by_cases hc : t ≤ cnt
    · rw [if_pos hc]
      simp
    · rw [if_neg hc]
      by_cases htc : (taken.any fun p => |p - x.pct| < d)
      · rw [if_pos htc]
        have := ih cnt taken
        omega
      · rw [if_neg htc]
        have := ih (cnt + 1) (x.pct :: taken)
        simp only [List.length_cons]
        omega

/-- The spacing filter keeps at most `target_count` items. -/
theorem filter_spaced_length (items : List DepthItem) (t d : ℤ) :
    (filter_spaced_items items t d).length ≤ t.toNat := by
  have := keepSpaced_length t d (sortBySizeDesc items) 0 []
  simpa using this

/-- The slot allocation gives each side at least 3 slots and at most 24 in
total, for every pair of accumulated volumes. -/
theorem allocCounts_spec (av bv : ℚ) :
    3 ≤ (allocCounts av bv).1 ∧ 3 ≤ (allocCounts av bv).2 ∧
    (allocCounts av bv).1 + (allocCounts av bv).2 ≤ 24 := by
  simp only [allocCounts]
  by_cases h : av + bv > 0
  · rw [if_pos h]
    have hne : av + bv ≠ 0 := ne_of_gt h
    have hsum : (24:ℚ) * (av / (av + bv)) + (24:ℚ) * (bv / (av + bv)) = 24 := by
      rw [← mul_add, div_add_div_same, div_self hne, mul_one]
    set A := truncToZero ((24:ℚ) * (av / (av + bv))) with hA
    set B := truncToZero ((24:ℚ) * (bv / (av + bv))) with hB
    have hnb : ¬ ((22:ℤ) ≤ A ∧ (22:ℤ) ≤ B) := by
      rintro ⟨hq1, hq2⟩
      have q1 : ((22:ℤ):ℚ) ≤ (24:ℚ) * (av / (av + bv)) :=
        le_of_le_truncToZero (by norm_num) hq1
      have q2 : ((22:ℤ):ℚ) ≤ (24:ℚ) * (bv / (av + bv)) :=
        le_of_le_truncToZero (by norm_num) hq2
      push_cast at q1 q2
      linarith
    rcases le_total 3 A with h3A | h3A <;> rcases le_total 3 B with h3B | h3B
    · rw [max_eq_right h3A, max_eq_right h3B]
      split_ifs <;> dsimp only <;> omega
    · rw [max_eq_right h3A, max_eq_left h3B]
      split_ifs <;> dsimp only <;> omega
    · rw [max_eq_left h3A, max_eq_right h3B]
      split_ifs <;> dsimp only <;> omega
    · rw [max_eq_left h3A, max_eq_left h3B]
      split_ifs <;> dsimp only <;> omega
  · rw [if_neg h]
    norm_num

/-- C7 amended: across both sides the number of kept depth entries never
exceeds the 24 display slots, and each side is always allocated at least
its 3-slot floor; the spacing filter may however keep fewer entries than
the allocation when candidates sit within the minimum distance. -/
theorem depth_slots_bounds (raw_ufos raw_stars : List DepthItem) (av bv : ℚ) :
    (depthKeep raw_ufos raw_stars av bv).1.length
      + (depthKeep raw_ufos raw_stars av bv).2.length ≤ 24 ∧
    3 ≤ (allocCounts av bv).1 ∧ 3 ≤ (allocCounts av bv).2 := by
  obtain ⟨h1, h2, h3⟩ := allocCounts_spec av bv
  refine ⟨?_, h1, h2⟩
  have l1 := filter_spaced_length raw_ufos (allocCounts av bv).1 4
  have l2 := filter_spaced_length raw_stars (allocCounts av bv).2 4
  simp only [depthKeep]
  omega

/-- Three ask-side candidates with identical relative positions. -/
def ufosSamePct : List DepthItem := [⟨5, 50⟩, ⟨4, 50⟩, ⟨3, 50⟩]

/-- C7 counterexample: with three valid ask-side candidates all at position
50 and a 12-slot allocation, the spacing filter keeps a single entry —
fewer than the 3-per-side floor the claim asserts for kept entries. -/
theorem depth_min_keep_counterexample :
    ufosSamePct.length = 3 ∧
    3 ≤ (allocCounts 12 12).1 ∧
    (depthKeep ufosSamePct [] 12 12).1.length = 1 := by
  refine ⟨rfl, (allocCounts_spec 12 12).1, ?_⟩
  have hc : allocCounts 12 12 = (12, 12) := by
    norm_num [allocCounts, truncToZero, max_def]
  have hsort : sortBySizeDesc ufosSamePct = ufosSamePct := by
    norm_num [sortBySizeDesc, ufosSamePct, insertBySize]
  simp only [depthKeep, hc]
  norm_num [filter_spaced_items, hsort, ufosSamePct, keepSpaced, List.any]

/-- The record the loop appended for the order just processed (`none` when
the iteration raised). -/
def lastRecord? (res : Except Unit LoopSt) : Option OpenRecord :=
  match res with
  | .ok st => st.acc.getLast?
  | .error _ => none

/-- C9 amended: for every open order with positive size and current price
WHOSE PARSED TARGET OR FLOOR IS POSITIVE (the valuation block runs only
then), the emitted mission value is size × current; with a positive target
the upside is size × target − size × current with an explicit leading +
when non-negative; with target absent (0) the upside is the "N/A"
sentinel.  Orders with neither target nor floor do not get fresh valuation
strings (see the counterexample). -/
theorem valuation_fields_spec (oracle : Nat → String → Option ℚ) (st : LoopSt) (o : ApiOrder)
    (tp sl size : ℚ) (k2 : Nat)
    (hp : parseConfig oracle (st.k + 1) (baseAsset o.productId) o.orderConfiguration
            = (tp, sl, size, k2))
    (hsz : 0 < size) (hcur : 0 < (oracle st.k (baseAsset o.productId)).getD 0)
    (hts : 0 < tp ∨ 0 < sl) :
    (lastRecord? (stepOrder oracle o st)).map (fun r => r.missionValue)
        = some ("$" ++ formatComma2 (size * (oracle st.k (baseAsset o.productId)).getD 0)) ∧
    (0 < tp → 0 ≤ size * tp - size * ((oracle st.k (baseAsset o.productId)).getD 0) →
        (lastRecord? (stepOrder oracle o st)).map (fun r => r.upside)
          = some ("+" ++ "$" ++ formatComma2
              (size * tp - size * ((oracle st.k (baseAsset o.productId)).getD 0)))) ∧
    (tp = 0 →
        (lastRecord? (stepOrder oracle o st)).map (fun r => r.upside) = some "N/A") := by
  have hcond : tp > 0 ∨ sl > 0 := hts
  have hvs : valuationStrings size ((oracle st.k (baseAsset o.productId)).getD 0) tp
      = (let current_val := size * (oracle st.k (baseAsset o.productId)).getD 0
         let est_value_str := "$" ++ formatComma2 current_val
         if tp > 0 then
           let upside := size * tp - current_val
           (est_value_str, (if upside ≥ 0 then "+" else "") ++ "$" ++ formatComma2 upside)
         else (est_value_str, "N/A")) := by
    simp only [valuationStrings]
    rw [if_pos ⟨hsz, hcur⟩]
  simp only [stepOrder, hp]
  rw [if_pos hcond]
  simp only [lastRecord?, List.getLast?_concat, Option.map_some']
  rw [hvs]
  refine ⟨?_, ?_, ?_⟩
  · by_cases htp : tp > 0
    · rw [if_pos htp]
    · rw [if_neg htp]
  · intro htp hup
    rw [if_pos htp]
    have hge : size * tp - size * ((oracle st.k (baseAsset o.productId)).getD 0) ≥ 0 := hup
    dsimp only
    rw [if_pos hge]
  · intro htp
    rw [if_neg (by rw [htp]; exact lt_irrefl 0)]

/-- A price oracle answering 5 for every lookup. -/
def priceOracle5 : Nat → String → Option ℚ := fun _ _ => some 5

/-- The initial loop state of `get_open_orders_data`. -/
def st0 : LoopSt := { k := 0, vs := none, acc := [] }

/-- An open plain-limit SELL with limit price 10 and base size 2. -/
def goodLimitOrder : ApiOrder :=
  { orderId := "g", productId := "BBB-USD", side := "SELL",
    orderConfiguration := some (.limitGtc (some 10) (some 2)),
    averageFilledPrice := 0, filledSize := 0, totalFees := 0,
    lastFillTime := none, createdTime := some 20 }

/-- C9 witness: the limit order with size 2, current price 5 and target 10
reports mission value $10.00 and upside +$10.00. -/
theorem valuation_fields_spec_witness :
    (lastRecord? (stepOrder priceOracle5 goodLimitOrder st0)).map (fun r => r.missionValue)
      = some ("$" ++ formatComma2 10) ∧
    (lastRecord? (stepOrder priceOracle5 goodLimitOrder st0)).map (fun r => r.upside)
      = some ("+" ++ "$" ++ formatComma2 10) := by
  have hp : parseConfig priceOracle5 (st0.k + 1) (baseAsset goodLimitOrder.productId)
      goodLimitOrder.orderConfiguration = (10, 5, 2, st0.k + 2) := by
    simp [parseConfig, priceOracle5, goodLimitOrder, st0]
  have h := valuation_fields_spec priceOracle5 st0 goodLimitOrder 10 5 2 (st0.k + 2) hp
    (by norm_num) (by norm_num [priceOracle5]) (Or.inl (by norm_num))
  obtain ⟨h1, h2, -⟩ := h
  constructor
  · rw [h1]
    norm_num [priceOracle5]
  · rw [h2 (by norm_num) (by norm_num [priceOracle5])]
    norm_num [priceOracle5]

/-- The money formatter renders 10 as 10.00. -/
theorem formatComma2_ten : formatComma2 10 = "10.00" := by
  have h : (10 : ℚ) * 100 = ((1000:ℤ) : ℚ) := by norm_num
  have hneg : ¬ ((10 : ℚ) < 0) := by norm_num
  simp only [formatComma2]
  rw [h, roundHalfEven_intCast, if_neg hneg]
  rfl

/-- The money formatter renders 5 as 5.00. -/
theorem formatComma2_five : formatComma2 5 = "5.00" := by
  have h : (5 : ℚ) * 100 = ((500:ℤ) : ℚ) := by norm_num
  have hneg : ¬ ((5 : ℚ) < 0) := by norm_num
  simp only [formatComma2]
  rw [h, roundHalfEven_intCast, if_neg hneg]
  rfl

/-- A bracket order whose limit and stop prices are both absent: parsed
target and floor are 0 while its base size is 1. -/
def bracketEmptyOrder : ApiOrder :=
  { orderId := "e", productId := "AAA-USD", side := "SELL",
    orderConfiguration := some (.bracketGtc none none (some 1)),
    averageFilledPrice := 0, filledSize := 0, totalFees := 0,
    lastFillTime := none, createdTime := some 10 }

/-- C9 counterexample: the bracket order with size 1 > 0 and current price
5 > 0 but no target/floor does NOT report value $5.00 and upside "N/A" as
the claim requires for every order with positive size and price: processed
after a recognised order it inherits that order's stale strings ($10.00 /
+$10.00), and processed alone it aborts the whole listing with an error. -/
theorem valuation_unguarded_counterexample :
    formatComma2 10 = "10.00" ∧ formatComma2 5 = "5.00" ∧
    (get_open_orders_data priceOracle5 [goodLimitOrder, bracketEmptyOrder]).2 = false ∧
    ((get_open_orders_data priceOracle5 [goodLimitOrder, bracketEmptyOrder]).1.map
        (fun r => (r.productId, r.missionValue, r.upside)))
      = [("BBB-USD", "$" ++ formatComma2 10, "+" ++ "$" ++ formatComma2 10),
         ("AAA-USD", "$" ++ formatComma2 10, "+" ++ "$" ++ formatComma2 10)] ∧
    get_open_orders_data priceOracle5 [bracketEmptyOrder] = ([], true) := by
  refine ⟨formatComma2_ten, formatComma2_five, ?_, ?_, ?_⟩
  · norm_num [get_open_orders_data, stepAll, stepOrder, parseConfig, priceOracle5,
      goodLimitOrder, bracketEmptyOrder, st0, valuationStrings, health_score,
      sortDescBy, insertDescBy, optTimeLt]
  · norm_num [get_open_orders_data, stepAll, stepOrder, parseConfig, priceOracle5,
      goodLimitOrder, bracketEmptyOrder, st0, valuationStrings, health_score,
      sortDescBy, insertDescBy, optTimeLt]
  · norm_num [get_open_orders_data, stepAll, stepOrder, parseConfig, priceOracle5,
      bracketEmptyOrder, st0, valuationStrings]

/-- C10: for a plain-limit order the synthetic floor comes from a second,
independent price lookup (call index k+1, distinct from the current-price
call at index k); whenever both lookups return the same positive price p
and the limit (target) price t is positive and differs from p, the emitted
health score is exactly 0, not the neutral 50. -/
theorem limit_floor_health_zero (oracle : Nat → String → Option ℚ) (st : LoopSt)
    (o : ApiOrder) (t : ℚ) (bs : Option ℚ) (p : ℚ)
    (hconf : o.orderConfiguration = some (.limitGtc (some t) bs))
    (h1 : oracle st.k (baseAsset o.productId) = some p)
    (h2 : oracle (st.k + 1) (baseAsset o.productId) = some p)
    (hp : 0 < p) (ht : 0 < t) (hne : t ≠ p) :
    (lastRecord? (stepOrder oracle o st)).map (fun r => r.health) = some 0 := by
  have hh : health_score t p p o.side = 0 := by
    have h0 : (p - p) / (t - p) * 100 = 0 := by
      rw [sub_self, zero_div, zero_mul]
    rw [health_score_interp t p p o.side ht hp hp (sub_ne_zero.mpr hne), h0,
        truncToZero_of_nonneg le_rfl, Int.floor_zero]
    norm_num
  simp only [stepOrder, hconf, parseConfig, h1, h2, Option.getD_some]
  rw [if_pos (Or.inl ht)]
  simp only [lastRecord?, List.getLast?_concat, Option.map_some']
  rw [hh]

/-- C10 witness: limit price 10, both lookups returning 5 — health 0. -/
theorem limit_floor_health_zero_witness :
    (lastRecord? (stepOrder priceOracle5 goodLimitOrder st0)).map (fun r => r.health)
      = some 0 :=
  limit_floor_health_zero priceOracle5 st0 goodLimitOrder 10 (some 2) 5 rfl rfl rfl
    (by norm_num) (by norm_num) (by norm_num)

/-- An open order whose configuration variant is unrecognised. -/
def unrecognizedOrder : ApiOrder :=
  { orderId := "u", productId := "AAA-USD", side := "SELL",
    orderConfiguration := some .other,
    averageFilledPrice := 0, filledSize := 0, totalFees := 0,
    lastFillTime := none, createdTime := some 10 }

/-- C4 (code bug): an unrecognised configuration does classify as
target = floor = size = 0, but the order is NOT silently excluded from the
open-orders output: the `orders_data.append` sits outside the
`if tp > 0 or sl > 0` guard, so processed alone the order makes the pass
reference the never-assigned valuation strings, abort, report an error and
return an empty list — and processed after a recognised order it appears
in the returned list (here with the neutral health 50). -/
theorem unrecognized_config_behavior :
    parseConfig priceOracle5 1 "AAA" (some .other) = (0, 0, 0, 1) ∧
    get_open_orders_data priceOracle5 [unrecognizedOrder] = ([], true) ∧
    (get_open_orders_data priceOracle5 [goodLimitOrder, unrecognizedOrder]).2 = false ∧
    ((get_open_orders_data priceOracle5 [goodLimitOrder, unrecognizedOrder]).1.map
        (fun r => (r.productId, r.tpPrice, r.slPrice, r.health)))
      = [("BBB-USD", 10, some 5, 0), ("AAA-USD", 0, none, 50)] := by
  refine ⟨rfl, ?_, ?_, ?_⟩
  · norm_num [get_open_orders_data, stepAll, stepOrder, parseConfig, priceOracle5,
      unrecognizedOrder, st0, valuationStrings, health_score]
  · norm_num [get_open_orders_data, stepAll, stepOrder, parseConfig, priceOracle5,
      goodLimitOrder, unrecognizedOrder, st0, valuationStrings, health_score,
      sortDescBy, insertDescBy, optTimeLt]
  · norm_num [get_open_orders_data, stepAll, stepOrder, parseConfig, priceOracle5,
      goodLimitOrder, unrecognizedOrder, st0, valuationStrings, health_score,
      sortDescBy, insertDescBy, optTimeLt, truncToZero]
